import Mathlib

/-!
Verification development for the trustbloc-edv storage abstraction and vault
lifecycle layer.

The definitions below are shallow embeddings of:
 * `pkg/restapi/edv/operation/operations.go` — the `VaultCollection`
   orchestrator (`createDataVault`, `createDocument`, `readDocument`,
   `queryVault`) and the document-id validator
   `checkIfBase58Encoded128BitValue`;
 * the in-memory provider (`memedvprovider`): `MemEDVStore.Put`, `UpsertBulk`,
   `Get`, `Update`, `Query`, `CreateEDVIndex`, `StoreDataVaultConfiguration`
   and `checkDuplicateReferenceID`;
 * the `btcsuite/btcutil/base58` encode/decode routines the validator calls.

Bytes are modelled as `List Nat` with each entry `< 256` where that matters.
Go's sentinel error values become the closed inductive `Err`; the `other`
constructor stands for arbitrary backend errors of an unspecified kind.
Stateful operations are modelled as explicit state passing: each operation
takes the provider state and yields `Except Err σ` (or a value); a returned
`.error` means the operation performed no mutation, matching the Go code, in
which every mutation is the final action before a `nil` return.
-/

/-- Raw stored bytes (each entry is one byte, i.e. `< 256` where relevant). -/
abbrev Bytes := List Nat

/-- The closed set of sentinel error values used by the code
(`storage.ErrDuplicateStore`, `storage.ErrStoreNotFound`,
`storage.ErrValueNotFound`, the `edverrors` sentinels, the
`edvprovider`/`memedvprovider` capability errors, and the dynamic error built
by `MemEDVStore.UpsertBulk` for a nil documents slice). `other n` stands for
an arbitrary backend error distinct from all sentinels. -/
inductive Err where
  | duplicateStore
  | storeNotFound
  | valueNotFound
  | duplicateVault
  | vaultNotFound
  | duplicateDocument
  | documentNotFound
  | notBase58Encoded
  | not128BitValue
  | indexingNotSupported
  | queryingNotSupported
  | nilDocumentsArray
  | other (code : Nat)
  deriving DecidableEq, Repr

/-! ## base58 (embedding of btcsuite/btcutil/base58, as called by the code) -/

/-- The bitcoin base58 alphabet used by `btcutil/base58`. -/
def b58Alphabet : List Char :=
  "123456789ABCDEFGHJKLMNPQRSTUVWXYZabcdefghijkmnopqrstuvwxyz".data

/-- Value of one base58 digit character; `none` for characters outside the
alphabet (Go's lookup table yields the sentinel 255 there). -/
def b58Value (c : Char) : Option Nat :=
  b58Alphabet.findIdx? (fun a => a = c)

/-- Fuelled little-endian base conversion: the digit loop of `base58.Encode`
(`for x > 0: x, mod = divmod(x, radix)`), written with explicit fuel so that
it is structurally recursive and computes by kernel reduction. -/
def natToDigitsAux (b : Nat) : Nat → Nat → List Nat
  | _, 0 => []
  | 0, _ + 1 => []
  | fuel + 1, x + 1 => (x + 1) % b :: natToDigitsAux b fuel ((x + 1) / b)

/-- Little-endian base-`b` digits of `x` (no leading zeros; `[]` for `0`). -/
def natToDigits (b x : Nat) : List Nat :=
  natToDigitsAux b x x

/-- Big-endian byte/digit accumulation: `big.Int.SetBytes` in `Encode` and the
digit-value accumulation loop of `Decode`. -/
def bytesToNat (b : Nat) (l : List Nat) : Nat :=
  l.foldl (fun acc d => acc * b + d) 0

/-- Number of leading elements satisfying `p`: the leading-zero-byte count in
`Encode` and the leading-`'1'` count in `Decode`. -/
def countLeading (p : α → Bool) : List α → Nat
  | [] => 0
  | a :: rest => if p a then countLeading p rest + 1 else 0

/-- Embedding of `base58.Encode`: interpret the bytes as a big-endian number, emit its
base-58 digits (least significant first), then one `'1'` per leading zero
byte, and reverse the whole string. -/
def encodeB58 (b : Bytes) : List Char :=
  let x := bytesToNat 256 b
  let digitChars := (natToDigits 58 x).map (fun d => b58Alphabet.getD d '1')
  (digitChars ++ List.replicate (countLeading (fun y => y = 0) b) '1').reverse

/-- Values of all characters; `none` as soon as any character is not a base58
digit (Go's decode loop returns an empty byte slice on the first bad char). -/
def b58Values : List Char → Option (List Nat)
  | [] => some []
  | c :: rest =>
    match b58Value c, b58Values rest with
    | some v, some vs => some (v :: vs)
    | _, _ => none

/-- Embedding of `base58.Decode`: accumulate the base-58 value of the string (big-endian),
take that number's big-endian bytes, and prepend one zero byte per leading
`'1'` character; any non-alphabet character yields the empty byte slice. -/
def decodeB58 (s : List Char) : Bytes :=
  match b58Values s with
  | none => []
  | some vals =>
    let answer := bytesToNat 58 vals
    let tmpval := (natToDigits 256 answer).reverse
    List.replicate (countLeading (fun c => c = '1') s) 0 ++ tmpval

/-- Embedding of `checkIfBase58Encoded128BitValue` from `operations.go`: decode the id,
fail `ErrNotBase58Encoded` on zero decoded bytes, `ErrNot128BitValue` on any
decoded length other than 16, succeed (`none`) otherwise. -/
def checkIfBase58Encoded128BitValue (id : String) : Option Err :=
  if (decodeB58 id.data).length = 0 then
    some Err.notBase58Encoded
  else if (decodeB58 id.data).length ≠ 16 then
    some Err.not128BitValue
  else
    none

/-! ## Data model -/

/-- Modelled from the spec: `models.EncryptedDocument` (the `models` package is
not under `src/`). An encrypted document is an opaque payload with a
client-assigned identifier: "opaque payload ... with two mandatory facets:
`id` ... and zero or more indexed metadata attributes". Only the `id` field is
inspected by the code under verification; the rest of the document is kept as
one opaque byte field. -/
structure EncryptedDocument where
  id : String
  jwe : Bytes
  deriving DecidableEq, Repr

/-- Modelled from the spec: `models.Query` (the `models` package is not under
`src/`) — "a set of required attribute name/value pairs". The code under
verification only passes queries through opaquely. -/
structure Query where
  name : String
  value : String
  deriving DecidableEq, Repr

/-- Modelled from the spec: `models.DataVaultConfiguration` (the `models`
package is not under `src/`) — "configuration with required `referenceId`".
Only the reference id is inspected by the code under verification. -/
structure DataVaultConfiguration where
  referenceId : String
  deriving DecidableEq, Repr

/-- Modelled from the spec: `json.Marshal` of an encrypted document ("the
document's canonical JSON form"). The claims never depend on the byte layout,
only on which document was serialized, so any concrete injective byte encoding
is adequate; `0` cannot occur inside the id's character codes' high bytes
position here because it terminates the id segment. -/
def jsonMarshal (document : EncryptedDocument) : Bytes :=
  (document.id.data.map Char.toNat) ++ 0 :: document.jwe

/-- Modelled from the spec: `json.Marshal` of a
`models.DataVaultConfigurationMapping` (configuration plus vault id), the
"configuration entry" persisted by the registry. -/
def marshalConfigEntry (config : DataVaultConfiguration) (vaultID : String) : Bytes :=
  (config.referenceId.data.map Char.toNat) ++ 0 :: (vaultID.data.map Char.toNat)

/-! ## The storage provider contract

`operations.go` is written against the `edvprovider.EDVProvider` /
`edvprovider.EDVStore` interfaces. A provider is modelled as a record of
pure functions over an abstract state type `σ`; a store handle is identified
by its store name (the in-memory handle is just a reference into the provider
state). An operation returning `.error` performs no mutation. -/

structure EDVProvider (σ : Type) where
  /-- Go `CreateStore(name)`: allocates the namespace, `ErrDuplicateStore` if it
  exists. -/
  createStore : σ → String → Except Err σ
  /-- Go `OpenStore(name)`: succeeds exactly when the namespace exists,
  `ErrStoreNotFound` otherwise; obtaining the handle does not mutate. -/
  openStore : σ → String → Except Err Unit
  /-- Go `StoreHandle.Get(k)`: raw bytes under key `k` of the named store,
  `ErrValueNotFound` if absent. -/
  get : σ → String → String → Except Err Bytes
  /-- Go `StoreHandle.Put(document)`: persist the document's serialization under
  its id in the named store. -/
  put : σ → String → EncryptedDocument → Except Err σ
  /-- Go `StoreHandle.CreateEDVIndex()`: best-effort index creation hook. -/
  createEDVIndex : σ → String → Except Err σ
  /-- Go `StoreHandle.Query(query)`: matching document ids, or a failure such as
  `ErrQueryingNotSupported`. -/
  query : σ → String → Query → Except Err (List String)

/-! ## VaultCollection (operations.go) -/

/-- The tail of `VaultCollection.createDataVault` after the `CreateStore`
call: open the store (propagating any open error), then attempt
`CreateEDVIndex`, tolerating exactly `ErrIndexingNotSupported` ("Allow the EDV
to still operate without index support") and failing on any other index
error. -/
def createDataVaultAfterStore (P : EDVProvider σ) (s : σ) (vaultID : String) :
    Except Err σ :=
  match P.openStore s vaultID with
  | .error e => .error e
  | .ok _ =>
    match P.createEDVIndex s vaultID with
    | .error e => if e = Err.indexingNotSupported then .ok s else .error e
    | .ok s2 => .ok s2

/-- Embedding of `VaultCollection.createDataVault`: create the backend store; if that
fails with exactly `storage.ErrDuplicateStore`, return
`edverrors.ErrDuplicateVault`. The Go code checks only for that one sentinel:
on any other `CreateStore` error it falls through, reassigning `err` at the
`OpenStore` call, so a non-duplicate `CreateStore` error is dropped and
execution continues on the unchanged state. -/
def createDataVault (P : EDVProvider σ) (s : σ) (vaultID : String) :
    Except Err σ :=
  match P.createStore s vaultID with
  | .error Err.duplicateStore => .error Err.duplicateVault
  | .ok s1 => createDataVaultAfterStore P s1 vaultID
  | .error _ => createDataVaultAfterStore P s vaultID

/-- Embedding of `VaultCollection.createDocument`: open the store (`ErrStoreNotFound` ↦
`ErrVaultNotFound`, other open errors propagate), validate the document id,
check for an existing document via `Get` (`nil` error ↦
`ErrDuplicateDocument`; any error other than `ErrValueNotFound` propagates),
and finally persist via `Put`. -/
def createDocument (P : EDVProvider σ) (s : σ) (vaultID : String)
    (document : EncryptedDocument) : Except Err σ :=
  match P.openStore s vaultID with
  | .error e => .error (if e = Err.storeNotFound then Err.vaultNotFound else e)
  | .ok _ =>
    match checkIfBase58Encoded128BitValue document.id with
    | some encodingErr => .error encodingErr
    | none =>
      match P.get s vaultID document.id with
      | .ok _ => .error Err.duplicateDocument
      | .error e =>
        if e ≠ Err.valueNotFound then .error e
        else P.put s vaultID document

/-- Embedding of `VaultCollection.readDocument`: open the store (`ErrStoreNotFound` ↦
`ErrVaultNotFound`), fetch the bytes (`ErrValueNotFound` ↦
`ErrDocumentNotFound`), other errors propagate, success returns the stored
bytes. -/
def readDocument (P : EDVProvider σ) (s : σ) (vaultID docID : String) :
    Except Err Bytes :=
  match P.openStore s vaultID with
  | .error e => .error (if e = Err.storeNotFound then Err.vaultNotFound else e)
  | .ok _ =>
    match P.get s vaultID docID with
    | .error e => .error (if e = Err.valueNotFound then Err.documentNotFound else e)
    | .ok documentBytes => .ok documentBytes

/-- Embedding of `VaultCollection.queryVault`: open the store (`ErrStoreNotFound` ↦
`ErrVaultNotFound`), then delegate to the store's `Query`. -/
def queryVault (P : EDVProvider σ) (s : σ) (vaultID : String) (q : Query) :
    Except Err (List String) :=
  match P.openStore s vaultID with
  | .error e => .error (if e = Err.storeNotFound then Err.vaultNotFound else e)
  | .ok _ => P.query s vaultID q

/-! ## The in-memory provider (memedvprovider over edge-core memstore)

A core store is an association list `key → bytes`; the provider state maps
store names to stores. `alookup`/`ainsert` model Go map read and
insert-or-overwrite. -/

/-- Association-list lookup (Go map read). -/
def alookup : List (String × α) → String → Option α
  | [], _ => none
  | (k, v) :: rest, key => if k = key then some v else alookup rest key

/-- Association-list insert-or-overwrite (Go map write). -/
def ainsert : List (String × α) → String → α → List (String × α)
  | [], key, v => [(key, v)]
  | (k, w) :: rest, key, v =>
    if k = key then (k, v) :: rest else (k, w) :: ainsert rest key v

/-- Contents of one in-memory core store: key → raw bytes. -/
abbrev StoreData := List (String × Bytes)

/-- State of the in-memory provider: store name → store contents. -/
abbrev MemState := List (String × StoreData)

/-- Embedding of `MemEDVStore.Put`: `json.Marshal` the document (which cannot fail for this
struct) and store the bytes under `document.ID` in the core store. -/
def MemEDVStore.Put (st : StoreData) (document : EncryptedDocument) :
    Except Err StoreData :=
  .ok (ainsert st document.id (jsonMarshal document))

/-- The loop body of `MemEDVStore.UpsertBulk`: `Put` each document in order,
returning the first `Put` error. -/
def upsertLoop (st : StoreData) : List EncryptedDocument → Except Err StoreData
  | [] => .ok st
  | document :: rest =>
    match MemEDVStore.Put st document with
    | .error e => .error e
    | .ok st1 => upsertLoop st1 rest

/-- Embedding of `MemEDVStore.UpsertBulk`: a nil documents slice is rejected with an error
("documents array cannot be nil"); otherwise each document is `Put` in order.
Go's nil slice is modelled as `none`, a non-nil slice as `some list`. -/
def MemEDVStore.UpsertBulk (st : StoreData)
    (documents : Option (List EncryptedDocument)) : Except Err StoreData :=
  match documents with
  | none => .error Err.nilDocumentsArray
  | some docs => upsertLoop st docs

/-- Embedding of `MemEDVStore.Update`: delegates directly to `Put`. -/
def MemEDVStore.Update (st : StoreData) (newDoc : EncryptedDocument) :
    Except Err StoreData :=
  MemEDVStore.Put st newDoc

/-- Embedding of `MemEDVStore.checkDuplicateReferenceID`: a successful core `Get` on key
`"ref:" ++ referenceID` means `ErrDuplicateVault`; the in-memory core `Get`
fails only with `ErrValueNotFound`, which is tolerated. -/
def checkDuplicateReferenceID (st : StoreData) (referenceID : String) :
    Option Err :=
  match alookup st ("ref:" ++ referenceID) with
  | some _ => some Err.duplicateVault
  | none => none

/-- Embedding of `MemEDVStore.StoreDataVaultConfiguration`: fail on a duplicate reference
id, then persist the reference-id pointer (`"ref:" ++ referenceId ↦ vaultID`)
and the configuration entry (`vaultID ↦ marshalled mapping`) in the core
store. -/
def MemEDVStore.StoreDataVaultConfiguration (st : StoreData)
    (config : DataVaultConfiguration) (vaultID : String) : Except Err StoreData :=
  match checkDuplicateReferenceID st config.referenceId with
  | some e => .error e
  | none =>
    let configBytes := marshalConfigEntry config vaultID
    let st1 := ainsert st ("ref:" ++ config.referenceId)
      (vaultID.data.map Char.toNat)
    .ok (ainsert st1 vaultID configBytes)

/-- The in-memory provider (`memedvprovider.MemEDVProvider` over the edge-core
`memstore`): `CreateStore` fails with `ErrDuplicateStore` on an existing name
and otherwise allocates an empty namespace; `OpenStore` fails with
`ErrStoreNotFound` on an absent name; `Get` fails with `ErrValueNotFound` on
an absent key; `Put` stores the document's serialization under its id;
`CreateEDVIndex` always fails with `ErrIndexingNotSupported` and `Query`
always fails with `ErrQueryingNotSupported`. -/
def memProvider : EDVProvider MemState where
  createStore s name :=
    match alookup s name with
    | some _ => .error Err.duplicateStore
    | none => .ok (ainsert s name [])
  openStore s name :=
    match alookup s name with
    | some _ => .ok ()
    | none => .error Err.storeNotFound
  get s name k :=
    match alookup s name with
    | none => .error Err.storeNotFound
    | some st =>
      match alookup st k with
      | none => .error Err.valueNotFound
      | some v => .ok v
  put s name document :=
    match alookup s name with
    | none => .error Err.storeNotFound
    | some st => .ok (ainsert s name (ainsert st document.id (jsonMarshal document)))
  createEDVIndex _ _ := .error Err.indexingNotSupported
  query _ _ _ := .error Err.queryingNotSupported

/-- Whether any store in the provider state holds a reference-id pointer for
`referenceID` — the persistence artifact that
`MemEDVStore.StoreDataVaultConfiguration` writes. -/
def refPointerStored (s : MemState) (referenceID : String) : Bool :=
  s.any (fun entry => (alookup entry.2 ("ref:" ++ referenceID)).isSome)

/-- The provider state visible after an operation: Go operations mutate state
only through the provider they return to the caller, so an `.error` outcome
leaves the caller's state as it was. -/
def stateAfter (s : σ) (r : Except Err σ) : σ :=
  match r with
  | .ok s2 => s2
  | .error _ => s

/-- A backend whose `CreateStore` fails with an error other than
`ErrDuplicateStore` while every later step succeeds — the situation
`createDataVault` meets on a non-in-memory backend with a failing store
allocation. -/
def droppedErrorProvider : EDVProvider Unit where
  createStore _ _ := .error (Err.other 7)
  openStore _ _ := .ok ()
  get _ _ _ := .error Err.valueNotFound
  put _ _ _ := .ok ()
  createEDVIndex _ _ := .ok ()
  query _ _ _ := .ok []

/-! ## base58 round-trip lemmas -/

theorem natToDigitsAux_eq_digits {b : Nat} (hb : 2 ≤ b) :
    ∀ fuel x, x ≤ fuel → natToDigitsAux b fuel x = Nat.digits b x := by
  intro fuel
  induction fuel with
  | zero =>
    intro x hx
    interval_cases x
    simp [natToDigitsAux]
  | succ f ih =>
    intro x hx
    match x with
    | 0 => simp [natToDigitsAux]
    | y + 1 =>
      have hdiv : (y + 1) / b ≤ f := by
        have : (y + 1) / b < y + 1 := Nat.div_lt_self (Nat.succ_pos y) (by omega)
        omega
      rw [natToDigitsAux, ih _ hdiv, Nat.digits_def' (by omega : 1 < b) (Nat.succ_pos y)]

theorem natToDigits_eq_digits {b : Nat} (hb : 2 ≤ b) (x : Nat) :
    natToDigits b x = Nat.digits b x :=
  natToDigitsAux_eq_digits hb x x (Nat.le_refl x)

theorem foldl_mul_add (b : Nat) :
    ∀ (l : List Nat) (acc : Nat),
      l.foldl (fun a d => a * b + d) acc = acc * b ^ l.length + Nat.ofDigits b l.reverse := by
  intro l
  induction l with
  | nil => intro acc; simp [Nat.ofDigits]
  | cons c t ih =>
    intro acc
    rw [List.foldl_cons, ih, List.reverse_cons, Nat.ofDigits_append]
    simp [Nat.ofDigits, pow_succ]
    ring

theorem bytesToNat_eq_ofDigits (b : Nat) (l : List Nat) :
    bytesToNat b l = Nat.ofDigits b l.reverse := by
  rw [bytesToNat, foldl_mul_add]
  simp

theorem countLeading_split [DecidableEq α] (z : α) :
    ∀ l : List α, ∃ t : List α,
      l = List.replicate (countLeading (fun y => y = z) l) z ++ t ∧
        (t = [] ∨ ∃ h tl, t = h :: tl ∧ h ≠ z) := by
  intro l
  induction l with
  | nil => exact ⟨[], by simp [countLeading], Or.inl rfl⟩
  | cons a rest ih =>
    by_cases ha : a = z
    · obtain ⟨t, ht, hh⟩ := ih
      subst ha
      refine ⟨t, ?_, hh⟩
      have hstep : countLeading (fun y => y = a) (a :: rest)
          = countLeading (fun y => y = a) rest + 1 := by
        simp [countLeading]
      rw [hstep, List.replicate_succ, List.cons_append]
      exact congrArg _ ht
    · refine ⟨a :: rest, ?_, Or.inr ⟨a, rest, rfl, ha⟩⟩
      simp [countLeading, ha]

theorem countLeading_replicate_append (p : α → Bool) (a : α) (hp : p a = true) :
    ∀ (n : Nat) (l : List α),
      countLeading p (List.replicate n a ++ l) = n + countLeading p l := by
  intro n
  induction n with
  | zero => intro l; simp
  | succ m ih =>
    intro l
    rw [List.replicate_succ, List.cons_append, countLeading, hp]
    simp [ih l]
    omega

theorem bytesToNat_replicate_zero_append (b : Nat) (n : Nat) (l : List Nat) :
    bytesToNat b (List.replicate n 0 ++ l) = bytesToNat b l := by
  have hz : ∀ m, List.foldl (fun a d => a * b + d) 0 (List.replicate m 0) = 0 := by
    intro m
    induction m with
    | zero => rfl
    | succ k ih => rw [List.replicate_succ, List.foldl_cons]; simpa using ih
  rw [bytesToNat, List.foldl_append, hz, bytesToNat]

theorem bytesToNat_cons_pos {b : Nat} (hb : 1 ≤ b) (h : Nat) (t : List Nat)
    (hh : h ≠ 0) : 0 < bytesToNat b (h :: t) := by
  rw [bytesToNat_eq_ofDigits, List.reverse_cons, Nat.ofDigits_append]
  have : 0 < b ^ t.reverse.length * Nat.ofDigits b [h] := by
    have h1 : 0 < b ^ t.reverse.length := Nat.pos_pow_of_pos _ (by omega)
    have h2 : 0 < Nat.ofDigits b [h] := by
      simp [Nat.ofDigits]
      omega
    exact Nat.mul_pos h1 h2
  omega

theorem b58Value_getD (d : Nat) (hd : d < 58) :
    b58Value (b58Alphabet.getD d '1') = some d := by
  revert hd
  revert d
  decide

theorem b58Alphabet_getD_ne_one (d : Nat) (hd : d < 58) (hdz : d ≠ 0) :
    b58Alphabet.getD d '1' ≠ '1' := by
  revert hdz
  revert hd
  revert d
  decide

theorem b58Values_append {l1 l2 : List Char} {v1 v2 : List Nat}
    (h1 : b58Values l1 = some v1) (h2 : b58Values l2 = some v2) :
    b58Values (l1 ++ l2) = some (v1 ++ v2) := by
  induction l1 generalizing v1 with
  | nil =>
    simp [b58Values] at h1
    subst h1
    simpa using h2
  | cons c rest ih =>
    rw [b58Values] at h1
    match hv : b58Value c, hrest : b58Values rest with
    | some v, some vs =>
      rw [hv, hrest] at h1
      simp at h1
      subst h1
      rw [List.cons_append, b58Values, hv, ih hrest]
      rfl
    | some v, none => rw [hv, hrest] at h1; simp at h1
    | none, some vs => rw [hv, hrest] at h1; simp at h1
    | none, none => rw [hv, hrest] at h1; simp at h1

theorem b58Values_replicate_one (n : Nat) :
    b58Values (List.replicate n '1') = some (List.replicate n 0) := by
  induction n with
  | zero => rfl
  | succ m ih =>
    rw [List.replicate_succ, List.replicate_succ, b58Values, ih]
    rfl

theorem b58Values_map_getD (l : List Nat) (hl : ∀ d ∈ l, d < 58) :
    b58Values (l.map (fun d => b58Alphabet.getD d '1')) = some l := by
  induction l with
  | nil => rfl
  | cons d rest ih =>
    rw [List.map_cons, b58Values, b58Value_getD d (hl d (List.mem_cons_self d rest)),
      ih (fun e he => hl e (List.mem_cons_of_mem d he))]

/-- Decoding the base58 encoding of a byte list recovers the bytes exactly
(the round trip performed by the id validator on well-formed ids). -/
theorem decodeB58_encodeB58 (b : Bytes) (hb : ∀ x ∈ b, x < 256) :
    decodeB58 (encodeB58 b) = b := by
  obtain ⟨t, hsplit, hhead⟩ := countLeading_split 0 b
  set z := countLeading (fun y => y = 0) b with hz
  have hxval : bytesToNat 256 b = bytesToNat 256 t := by
    conv_lhs => rw [hsplit]
    exact bytesToNat_replicate_zero_append 256 z t
  set x := bytesToNat 256 b with hxdef
  have hdig : natToDigits 58 x = Nat.digits 58 x := natToDigits_eq_digits (by omega) x
  have henc : encodeB58 b =
      List.replicate z '1' ++
        ((Nat.digits 58 x).map (fun d => b58Alphabet.getD d '1')).reverse := by
    rw [encodeB58]
    simp only [← hxdef, ← hz, hdig]
    rw [List.reverse_append, List.reverse_replicate]
  have hdigits_lt : ∀ d ∈ (Nat.digits 58 x).reverse, d < 58 := by
    intro d hd
    exact Nat.digits_lt_base (by omega) (List.mem_reverse.mp hd)
  have hmaprev : ((Nat.digits 58 x).map (fun d => b58Alphabet.getD d '1')).reverse
      = (Nat.digits 58 x).reverse.map (fun d => b58Alphabet.getD d '1') := by
    rw [List.map_reverse]
  have hvals : b58Values (encodeB58 b) =
      some (List.replicate z 0 ++ (Nat.digits 58 x).reverse) := by
    rw [henc, hmaprev]
    exact b58Values_append (b58Values_replicate_one z)
      (b58Values_map_getD _ hdigits_lt)
  have hanswer : bytesToNat 58 (List.replicate z 0 ++ (Nat.digits 58 x).reverse) = x := by
    rw [bytesToNat_replicate_zero_append, bytesToNat_eq_ofDigits,
      List.reverse_reverse, Nat.ofDigits_digits]
  have htmp : (natToDigits 256 x).reverse = t := by
    rw [natToDigits_eq_digits (by omega)]
    rcases hhead with hnil | ⟨h, tl, htl, hne⟩
    · subst hnil
      have : x = 0 := by rw [hxval]; rfl
      rw [this]
      simp
    · subst htl
      have hxt : x = Nat.ofDigits 256 (h :: tl).reverse := by
        rw [hxval, bytesToNat_eq_ofDigits]
      have hlast : ∀ hne' : (h :: tl).reverse ≠ [],
          ((h :: tl).reverse).getLast hne' ≠ 0 := by
        intro hne'
        rw [List.getLast_reverse]
        simpa using hne
      have hlt : ∀ l ∈ (h :: tl).reverse, l < 256 := by
        intro l hl
        apply hb
        rw [hsplit]
        exact List.mem_append_right _ (List.mem_reverse.mp hl)
      rw [hxt, Nat.digits_ofDigits 256 (by omega) _ hlt hlast, List.reverse_reverse]
  have hcount : countLeading (fun c => c = '1') (encodeB58 b) = z := by
    rw [henc, hmaprev]
    rcases Nat.eq_zero_or_pos x with hx0 | hxpos
    · rw [hx0]
      simp only [Nat.digits_zero, List.reverse_nil, List.map_nil, List.append_nil]
      have := countLeading_replicate_append (fun c => decide (c = '1')) '1'
        (by simp) z ([] : List Char)
      simpa [countLeading] using this
    · have hx0 : x ≠ 0 := by omega
      have hnonnil : Nat.digits 58 x ≠ [] := Nat.digits_ne_nil_iff_ne_zero.mpr hx0
      have hlast := Nat.getLast_digit_ne_zero 58 hx0
      have hgl : (Nat.digits 58 x).reverse.head? = some ((Nat.digits 58 x).getLast hnonnil) := by
        rw [List.head?_reverse, List.getLast?_eq_getLast _ hnonnil]
      obtain ⟨d, rest, hrev⟩ : ∃ d rest, (Nat.digits 58 x).reverse = d :: rest := by
        match hcase : (Nat.digits 58 x).reverse with
        | [] => rw [hcase] at hgl; simp at hgl
        | d :: rest => exact ⟨d, rest, rfl⟩
      rw [hrev] at hgl
      simp at hgl
      have hd58 : d < 58 := hdigits_lt d (by rw [hrev]; exact List.mem_cons_self d rest)
      have hdne : d ≠ 0 := by rw [hgl]; exact hlast
      have hchar : b58Alphabet.getD d '1' ≠ '1' := b58Alphabet_getD_ne_one d hd58 hdne
      have hchar' : b58Alphabet[d]?.getD '1' ≠ '1' := by
        rw [← List.getD_eq_getElem?_getD]
        exact hchar
      rw [hrev, List.map_cons]
      rw [countLeading_replicate_append (fun c => decide (c = '1')) '1' (by simp)]
      simp [countLeading, hchar']
  rw [decodeB58, hvals]
  simp only [hanswer, htmp, hcount]
  rw [hsplit]

/-! ## Association-list lemmas -/

theorem alookup_ainsert_self (l : List (String × α)) (k : String) (v : α) :
    alookup (ainsert l k v) k = some v := by
  induction l with
  | nil => simp [ainsert, alookup]
  | cons p rest ih =>
    obtain ⟨k', w⟩ := p
    by_cases hk : k' = k
    · subst hk
      simp [ainsert, alookup]
    · simp [ainsert, alookup, hk, ih]

theorem ainsert_absent (l : List (String × α)) (k : String) (v : α)
    (h : alookup l k = none) : ainsert l k v = l ++ [(k, v)] := by
  induction l with
  | nil => rfl
  | cons p rest ih =>
    obtain ⟨k', w⟩ := p
    rw [alookup] at h
    by_cases hk : k' = k
    · rw [if_pos hk] at h
      cases h
    · rw [if_neg hk] at h
      rw [ainsert, if_neg hk, List.cons_append, ih h]

theorem memProvider_openStore_of_some {s : MemState} {name : String} {st : StoreData}
    (h : alookup s name = some st) : memProvider.openStore s name = .ok () := by
  simp [memProvider, h]

theorem memProvider_openStore_of_none {s : MemState} {name : String}
    (h : alookup s name = none) :
    memProvider.openStore s name = .error Err.storeNotFound := by
  simp [memProvider, h]

theorem memProvider_get_eq {s : MemState} {name : String} {st : StoreData}
    (h : alookup s name = some st) (k : String) :
    memProvider.get s name k =
      (match alookup st k with
       | none => .error Err.valueNotFound
       | some v => .ok v) := by
  simp [memProvider, h]

theorem memProvider_put_eq {s : MemState} {name : String} {st : StoreData}
    (h : alookup s name = some st) (document : EncryptedDocument) :
    memProvider.put s name document =
      .ok (ainsert s name (ainsert st document.id (jsonMarshal document))) := by
  simp [memProvider, h]

/-! ## Claim theorems -/

/-- C2 (amended): document-id validation accepts `id` exactly when base58
decoding yields 16 bytes; zero decoded bytes fail with `NotBase58Encoded` and
any other decoded length different from 16 fails with `Not128BitValue`; the
base58 encoding of every 16-byte array passes validation, and the base58
encoding of every nonempty byte array whose length differs from 16 fails with
`Not128BitValue` (the empty byte array's encoding is the empty string, which
decodes to zero bytes and so fails with `NotBase58Encoded` instead). -/
theorem checkIfBase58_id_validation :
    (∀ id : String,
      checkIfBase58Encoded128BitValue id = none ↔ (decodeB58 id.data).length = 16) ∧
    (∀ id : String, (decodeB58 id.data).length = 0 →
      checkIfBase58Encoded128BitValue id = some Err.notBase58Encoded) ∧
    (∀ id : String, (decodeB58 id.data).length ≠ 0 → (decodeB58 id.data).length ≠ 16 →
      checkIfBase58Encoded128BitValue id = some Err.not128BitValue) ∧
    (∀ b : Bytes, b.length = 16 → (∀ x ∈ b, x < 256) →
      checkIfBase58Encoded128BitValue (String.mk (encodeB58 b)) = none) ∧
    (∀ b : Bytes, b ≠ [] → b.length ≠ 16 → (∀ x ∈ b, x < 256) →
      checkIfBase58Encoded128BitValue (String.mk (encodeB58 b)) = some Err.not128BitValue) := by
  have hchk : ∀ id : String, checkIfBase58Encoded128BitValue id =
      (if (decodeB58 id.data).length = 0 then some Err.notBase58Encoded
       else if (decodeB58 id.data).length ≠ 16 then some Err.not128BitValue
       else none) := fun _ => rfl
  have hdata : ∀ b : Bytes, (String.mk (encodeB58 b)).data = encodeB58 b := fun _ => rfl
  refine ⟨fun id => ?_, fun id h0 => ?_, fun id h0 h16 => ?_, fun b hlen hlt => ?_,
    fun b hne hlen hlt => ?_⟩
  · rw [hchk]
    split_ifs with h1 h2
    · simp
      omega
    · simp
      omega
    · simp
      omega
  · rw [hchk, if_pos h0]
  · rw [hchk, if_neg h0, if_pos h16]
  · rw [hchk]
    rw [hdata, decodeB58_encodeB58 b hlt, hlen]
    norm_num
  · rw [hchk]
    rw [hdata, decodeB58_encodeB58 b hlt]
    have hpos : b.length ≠ 0 := fun hz => hne (List.eq_nil_of_length_eq_zero hz)
    rw [if_neg hpos, if_pos hlen]

/-- Witness for C2: the encoding of sixteen zero bytes (sixteen `'1'`
characters) passes validation, and the encoding of the single byte 255 fails
with `Not128BitValue`. -/
theorem checkIfBase58_id_validation_witness :
    checkIfBase58Encoded128BitValue (String.mk (encodeB58 (List.replicate 16 0))) = none ∧
    checkIfBase58Encoded128BitValue (String.mk (encodeB58 [255])) =
      some Err.not128BitValue :=
  ⟨checkIfBase58_id_validation.2.2.2.1 (List.replicate 16 0) (by decide) (by decide),
   checkIfBase58_id_validation.2.2.2.2 [255] (by decide) (by decide) (by decide)⟩

/-- Counterexample for C2 as stated: the empty byte array has length ≠ 16, yet
the validator rejects its base58 encoding (the empty string) with
`NotBase58Encoded`, not `Not128BitValue`. -/
theorem checkIfBase58_empty_bytes_counterexample :
    ([] : Bytes).length ≠ 16 ∧
    checkIfBase58Encoded128BitValue (String.mk (encodeB58 [])) =
      some Err.notBase58Encoded ∧
    Err.notBase58Encoded ≠ Err.not128BitValue := by
  refine ⟨by decide, ?_, by decide⟩
  decide

/-- C10: in the in-memory store, `Update` is definitionally `Put`; it performs
no existence check, and in all cases (absent or present id alike) it stores
the JSON serialization of the document under the document's id. -/
theorem memStore_update_is_put :
    ∀ (st : StoreData) (newDoc : EncryptedDocument),
      MemEDVStore.Update st newDoc = MemEDVStore.Put st newDoc ∧
      MemEDVStore.Update st newDoc =
        .ok (ainsert st newDoc.id (jsonMarshal newDoc)) ∧
      alookup (ainsert st newDoc.id (jsonMarshal newDoc)) newDoc.id =
        some (jsonMarshal newDoc) :=
  fun st newDoc => ⟨rfl, rfl, alookup_ainsert_self st newDoc.id (jsonMarshal newDoc)⟩

theorem upsertLoop_eq_foldl :
    ∀ (docs : List EncryptedDocument) (st : StoreData),
      upsertLoop st docs =
        .ok (docs.foldl (fun acc doc => ainsert acc doc.id (jsonMarshal doc)) st) := by
  intro docs
  induction docs with
  | nil => intro st; rfl
  | cons d rest ih =>
    intro st
    rw [upsertLoop, MemEDVStore.Put]
    simpa using ih (ainsert st d.id (jsonMarshal d))

/-- C8: `UpsertBulk` rejects a nil documents slice with an error, treats an
empty non-nil slice as a successful no-op, and for a non-empty slice `Put`s
each document in order (propagating a `Put` failure immediately), succeeding
with all documents stored when every `Put` succeeds — which, in the in-memory
store, is always. -/
theorem memStore_upsertBulk_semantics :
    ∀ (st st1 : StoreData) (docs : List EncryptedDocument) (d : EncryptedDocument)
      (rest : List EncryptedDocument),
      MemEDVStore.UpsertBulk st none = .error Err.nilDocumentsArray ∧
      MemEDVStore.UpsertBulk st (some []) = .ok st ∧
      (MemEDVStore.UpsertBulk st (some (d :: rest)) =
        match MemEDVStore.Put st d with
        | .error e => .error e
        | .ok st2 => upsertLoop st2 rest) ∧
      (MemEDVStore.Put st d = .ok st1 →
        MemEDVStore.UpsertBulk st (some (d :: rest)) = upsertLoop st1 rest) ∧
      MemEDVStore.UpsertBulk st (some docs) =
        .ok (docs.foldl (fun acc doc => ainsert acc doc.id (jsonMarshal doc)) st) := by
  intro st st1 docs d rest
  refine ⟨rfl, rfl, rfl, fun hput => ?_, ?_⟩
  · rw [MemEDVStore.UpsertBulk, upsertLoop, hput]
  · rw [MemEDVStore.UpsertBulk, upsertLoop_eq_foldl]

/-- Witness for C8 (the fourth conjunct has a hypothesis): one concrete bulk
upsert of two documents applies both `Put`s in order. -/
theorem memStore_upsertBulk_semantics_witness :
    MemEDVStore.UpsertBulk [] (some [⟨"a", [1]⟩, ⟨"b", [2]⟩]) =
      upsertLoop [("a", jsonMarshal ⟨"a", [1]⟩)] [⟨"b", [2]⟩] :=
  (memStore_upsertBulk_semantics [] [("a", jsonMarshal ⟨"a", [1]⟩)] [] ⟨"a", [1]⟩
    [⟨"b", [2]⟩]).2.2.2.1 (by rfl)

/-- C9: the in-memory store's `Query` always fails with
`ErrQueryingNotSupported`, and `queryVault` over the in-memory provider never
returns a successful (empty or non-empty) id list. -/
theorem queryVault_memstore_not_supported :
    ∀ (s : MemState) (vaultID : String) (q : Query),
      memProvider.query s vaultID q = .error Err.queryingNotSupported ∧
      ((alookup s vaultID).isSome = true →
        queryVault memProvider s vaultID q = .error Err.queryingNotSupported) ∧
      (∀ ids : List String, queryVault memProvider s vaultID q ≠ .ok ids) := by
  intro s vaultID q
  refine ⟨rfl, fun hsome => ?_, fun ids => ?_⟩
  · match hst : alookup s vaultID with
    | none => rw [hst] at hsome; cases hsome
    | some st =>
      rw [queryVault, memProvider_openStore_of_some hst]
      rfl
  · match hst : alookup s vaultID with
    | none =>
      rw [queryVault, memProvider_openStore_of_none hst]
      simp
    | some st =>
      rw [queryVault, memProvider_openStore_of_some hst]
      simp [memProvider]

/-- Witness for C9: querying an existing vault backed by the in-memory store
fails with `ErrQueryingNotSupported`. -/
theorem queryVault_memstore_not_supported_witness :
    queryVault memProvider [("v", [])] "v" ⟨"n", "w"⟩ =
      .error Err.queryingNotSupported :=
  (queryVault_memstore_not_supported [("v", [])] "v" ⟨"n", "w"⟩).2.1 (by decide)

/-- C1 (amended): a successful `createDataVault` creates the backend store and
attempts index creation (tolerating `ErrIndexingNotSupported`), but it does
not invoke `StoreDataVaultConfiguration`: no reference-id pointer (and hence
no configuration entry) is persisted anywhere in the provider state. -/
theorem createDataVault_stores_no_configuration :
    ∀ (s : MemState) (vaultID refID : String), alookup s vaultID = none →
      createDataVault memProvider s vaultID = .ok (ainsert s vaultID []) ∧
      refPointerStored (ainsert s vaultID []) refID = refPointerStored s refID := by
  intro s vaultID refID h
  have hcs : memProvider.createStore s vaultID = .ok (ainsert s vaultID []) := by
    simp [memProvider, h]
  have hos : memProvider.openStore (ainsert s vaultID []) vaultID = .ok () :=
    memProvider_openStore_of_some (alookup_ainsert_self s vaultID [])
  constructor
  · rw [createDataVault, hcs]
    show createDataVaultAfterStore memProvider (ainsert s vaultID []) vaultID =
      Except.ok (ainsert s vaultID [])
    rw [createDataVaultAfterStore, hos]
    rfl
  · rw [ainsert_absent s vaultID [] h, refPointerStored, refPointerStored,
      List.any_append]
    simp [alookup]

/-- Witness for C1's amended theorem at a concrete fresh vault. -/
theorem createDataVault_stores_no_configuration_witness :
    createDataVault memProvider [] "vaultA" = .ok [("vaultA", [])] ∧
    refPointerStored (ainsert [] "vaultA" []) "refA" = refPointerStored [] "refA" := by
  have h := createDataVault_stores_no_configuration [] "vaultA" "refA" (by rfl)
  exact ⟨h.1, h.2⟩

/-- Counterexample for C1 as stated: a concrete successful `createDataVault`
run from the empty provider state leaves a state with no reference-id pointer,
whereas invoking `StoreDataVaultConfiguration` (as the claim requires) does
persist that pointer. -/
theorem createDataVault_no_config_counterexample :
    createDataVault memProvider [] "vault1" = .ok [("vault1", [])] ∧
    refPointerStored [("vault1", [])] "vault1" = false ∧
    (match MemEDVStore.StoreDataVaultConfiguration [] ⟨"vault1"⟩ "vid1" with
     | .ok st => (alookup st "ref:vault1").isSome
     | .error _ => false) = true := by
  refine ⟨rfl, by decide, by decide⟩

/-- C4 (amended): when `CreateStore` fails with `DuplicateStore` the caller
receives `DuplicateVault`; when `CreateStore` fails with any other error, that
error is silently dropped — `createDataVault` proceeds to `OpenStore` on the
unchanged state and returns the outcome of the remaining steps. -/
theorem createDataVault_duplicate_translation :
    ∀ (σ : Type) (P : EDVProvider σ) (s : σ) (vaultID : String),
      (P.createStore s vaultID = .error Err.duplicateStore →
        createDataVault P s vaultID = .error Err.duplicateVault) ∧
      (∀ e, P.createStore s vaultID = .error e → e ≠ Err.duplicateStore →
        createDataVault P s vaultID = createDataVaultAfterStore P s vaultID) := by
  intro σ P s vaultID
  constructor
  · intro h
    rw [createDataVault, h]
  · intro e h he
    rw [createDataVault, h]
    cases e <;> first | exact absurd rfl he | rfl

/-- Witness for C4's amended theorem: creating a vault whose store already
exists in the in-memory provider yields `ErrDuplicateVault`. -/
theorem createDataVault_duplicate_translation_witness :
    createDataVault memProvider [("v", [])] "v" = .error Err.duplicateVault :=
  (createDataVault_duplicate_translation MemState memProvider [("v", [])] "v").1 (by rfl)

/-- Counterexample for C4 as stated: on a backend whose `CreateStore` fails
with an error other than `DuplicateStore` while the remaining steps succeed,
`createDataVault` returns success — the `CreateStore` error is not propagated
to the caller. -/
theorem createDataVault_drops_createStore_error :
    droppedErrorProvider.createStore () "vault1" = .error (Err.other 7) ∧
    createDataVault droppedErrorProvider () "vault1" = .ok () ∧
    Except.ok () ≠ (Except.error (Err.other 7) : Except Err Unit) :=
  ⟨rfl, rfl, fun h => by cases h⟩

/-- C7: when index creation fails with `ErrIndexingNotSupported`,
`createDataVault` still returns success (the vault operates without indexes);
when index creation fails with any other error, `createDataVault` fails with
exactly that error. -/
theorem createDataVault_index_failure_handling :
    ∀ (σ : Type) (P : EDVProvider σ) (s s1 : σ) (vaultID : String) (e : Err),
      P.createStore s vaultID = .ok s1 →
      P.openStore s1 vaultID = .ok () →
      P.createEDVIndex s1 vaultID = .error e →
      createDataVault P s vaultID =
        (if e = Err.indexingNotSupported then .ok s1 else .error e) := by
  intro σ P s s1 vaultID e h1 h2 h3
  rw [createDataVault, h1]
  show createDataVaultAfterStore P s1 vaultID =
    if e = Err.indexingNotSupported then Except.ok s1 else Except.error e
  rw [createDataVaultAfterStore, h2]
  show (match P.createEDVIndex s1 vaultID with
        | .error e2 => if e2 = Err.indexingNotSupported then Except.ok s1 else Except.error e2
        | .ok s2 => Except.ok s2) =
    if e = Err.indexingNotSupported then Except.ok s1 else Except.error e
  rw [h3]

/-- Witness for C7: on the in-memory provider (whose `CreateEDVIndex` always
reports `ErrIndexingNotSupported`), vault creation still succeeds. -/
theorem createDataVault_index_failure_handling_witness :
    createDataVault memProvider [] "v7" = .ok [("v7", [])] := by
  have h := createDataVault_index_failure_handling MemState memProvider [] [("v7", [])]
    "v7" Err.indexingNotSupported (by rfl) (by rfl) (by rfl)
  simpa using h

theorem createDocument_open_error (P : EDVProvider σ) (s : σ) (vaultID : String)
    (document : EncryptedDocument) (e : Err)
    (hos : P.openStore s vaultID = .error e) :
    createDocument P s vaultID document =
      .error (if e = Err.storeNotFound then Err.vaultNotFound else e) := by
  rw [createDocument, hos]

theorem createDocument_checkId_error (P : EDVProvider σ) (s : σ) (vaultID : String)
    (document : EncryptedDocument) (e : Err)
    (hos : P.openStore s vaultID = .ok ())
    (hchk : checkIfBase58Encoded128BitValue document.id = some e) :
    createDocument P s vaultID document = .error e := by
  rw [createDocument, hos]
  show (match checkIfBase58Encoded128BitValue document.id with
        | some encodingErr => Except.error encodingErr
        | none =>
          match P.get s vaultID document.id with
          | .ok _ => Except.error Err.duplicateDocument
          | .error e2 =>
            if e2 ≠ Err.valueNotFound then Except.error e2
            else P.put s vaultID document) = Except.error e
  rw [hchk]

theorem createDocument_get_cases (P : EDVProvider σ) (s : σ) (vaultID : String)
    (document : EncryptedDocument)
    (hos : P.openStore s vaultID = .ok ())
    (hchk : checkIfBase58Encoded128BitValue document.id = none) :
    createDocument P s vaultID document =
      (match P.get s vaultID document.id with
       | .ok _ => Except.error Err.duplicateDocument
       | .error e =>
         if e ≠ Err.valueNotFound then Except.error e
         else P.put s vaultID document) := by
  rw [createDocument, hos]
  show (match checkIfBase58Encoded128BitValue document.id with
        | some encodingErr => Except.error encodingErr
        | none =>
          match P.get s vaultID document.id with
          | .ok _ => Except.error Err.duplicateDocument
          | .error e2 =>
            if e2 ≠ Err.valueNotFound then Except.error e2
            else P.put s vaultID document) = _
  rw [hchk]

theorem readDocument_open_error (P : EDVProvider σ) (s : σ) (vaultID docID : String)
    (e : Err) (hos : P.openStore s vaultID = .error e) :
    readDocument P s vaultID docID =
      .error (if e = Err.storeNotFound then Err.vaultNotFound else e) := by
  rw [readDocument, hos]

theorem readDocument_open_ok (P : EDVProvider σ) (s : σ) (vaultID docID : String)
    (hos : P.openStore s vaultID = .ok ()) :
    readDocument P s vaultID docID =
      (match P.get s vaultID docID with
       | .error e => .error (if e = Err.valueNotFound then Err.documentNotFound else e)
       | .ok documentBytes => .ok documentBytes) := by
  rw [readDocument, hos]

/-- C3: `createDocument` on an id already stored in the vault fails with
`DuplicateDocument` and leaves the provider state (hence the stored document)
unchanged; the existence check is `Get`: a nil `Get` error implies
`DuplicateDocument`, `ValueNotFound` is the only outcome that allows the
subsequent `Put`, and any other `Get` error propagates to the caller. -/
theorem createDocument_duplicate_semantics :
    (∀ (σ : Type) (P : EDVProvider σ) (s : σ) (vaultID : String)
      (document : EncryptedDocument),
      P.openStore s vaultID = .ok () →
      checkIfBase58Encoded128BitValue document.id = none →
        (∀ b, P.get s vaultID document.id = .ok b →
          createDocument P s vaultID document = .error Err.duplicateDocument) ∧
        (P.get s vaultID document.id = .error Err.valueNotFound →
          createDocument P s vaultID document = P.put s vaultID document) ∧
        (∀ e, P.get s vaultID document.id = .error e → e ≠ Err.valueNotFound →
          createDocument P s vaultID document = .error e)) ∧
    (∀ (s : MemState) (st : StoreData) (vaultID : String)
      (document : EncryptedDocument) (b : Bytes),
      alookup s vaultID = some st →
      checkIfBase58Encoded128BitValue document.id = none →
      alookup st document.id = some b →
        createDocument memProvider s vaultID document = .error Err.duplicateDocument ∧
        stateAfter s (createDocument memProvider s vaultID document) = s) := by
  have hparam : ∀ (σ : Type) (P : EDVProvider σ) (s : σ) (vaultID : String)
      (document : EncryptedDocument),
      P.openStore s vaultID = .ok () →
      checkIfBase58Encoded128BitValue document.id = none →
        (∀ b, P.get s vaultID document.id = .ok b →
          createDocument P s vaultID document = .error Err.duplicateDocument) ∧
        (P.get s vaultID document.id = .error Err.valueNotFound →
          createDocument P s vaultID document = P.put s vaultID document) ∧
        (∀ e, P.get s vaultID document.id = .error e → e ≠ Err.valueNotFound →
          createDocument P s vaultID document = .error e) := by
    intro σ P s vaultID document hos hchk
    refine ⟨fun b hget => ?_, fun hget => ?_, fun e hget hne => ?_⟩
    · rw [createDocument_get_cases P s vaultID document hos hchk, hget]
    · rw [createDocument_get_cases P s vaultID document hos hchk, hget]
      show (if Err.valueNotFound ≠ Err.valueNotFound then Except.error Err.valueNotFound
            else P.put s vaultID document) = P.put s vaultID document
      simp
    · rw [createDocument_get_cases P s vaultID document hos hchk, hget]
      show (if e ≠ Err.valueNotFound then Except.error e
            else P.put s vaultID document) = Except.error e
      rw [if_pos hne]
  refine ⟨hparam, fun s st vaultID document b hst hchk hb => ?_⟩
  have hget : memProvider.get s vaultID document.id = .ok b := by
    rw [memProvider_get_eq hst, hb]
  have hdup := (hparam MemState memProvider s vaultID document
    (memProvider_openStore_of_some hst) hchk).1 b hget
  exact ⟨hdup, by rw [hdup]; rfl⟩

/-- Witness for C3: creating a document whose (valid) id is already present in
the vault fails with `DuplicateDocument` and the provider state is
unchanged. -/
theorem createDocument_duplicate_semantics_witness :
    createDocument memProvider [("v", [("1111111111111111", [1, 2])])] "v"
      ⟨"1111111111111111", [9]⟩ = .error Err.duplicateDocument ∧
    stateAfter [("v", [("1111111111111111", [1, 2])])]
      (createDocument memProvider [("v", [("1111111111111111", [1, 2])])] "v"
        ⟨"1111111111111111", [9]⟩) = [("v", [("1111111111111111", [1, 2])])] :=
  createDocument_duplicate_semantics.2 [("v", [("1111111111111111", [1, 2])])]
    [("1111111111111111", [1, 2])] "v" ⟨"1111111111111111", [9]⟩ [1, 2]
    (by rfl) (by decide) (by rfl)

/-- C5: `readDocument` translates `StoreNotFound` from opening the store to
`VaultNotFound` and `ValueNotFound` from `Get` to `DocumentNotFound`,
propagates any other open or `Get` error unchanged, and on success returns the
stored bytes for the document id. -/
theorem readDocument_error_translation :
    (∀ (σ : Type) (P : EDVProvider σ) (s : σ) (vaultID docID : String),
      (∀ e, P.openStore s vaultID = .error e →
        readDocument P s vaultID docID =
          .error (if e = Err.storeNotFound then Err.vaultNotFound else e)) ∧
      (P.openStore s vaultID = .ok () →
        (∀ e, P.get s vaultID docID = .error e →
          readDocument P s vaultID docID =
            .error (if e = Err.valueNotFound then Err.documentNotFound else e)) ∧
        (∀ b, P.get s vaultID docID = .ok b →
          readDocument P s vaultID docID = .ok b))) ∧
    (∀ (s : MemState) (vaultID docID : String),
      (alookup s vaultID = none →
        readDocument memProvider s vaultID docID = .error Err.vaultNotFound) ∧
      (∀ st, alookup s vaultID = some st → alookup st docID = none →
        readDocument memProvider s vaultID docID = .error Err.documentNotFound) ∧
      (∀ st b, alookup s vaultID = some st → alookup st docID = some b →
        readDocument memProvider s vaultID docID = .ok b)) := by
  constructor
  · intro σ P s vaultID docID
    refine ⟨fun e hos => readDocument_open_error P s vaultID docID e hos,
      fun hos => ⟨fun e hget => ?_, fun b hget => ?_⟩⟩
    · rw [readDocument_open_ok P s vaultID docID hos, hget]
    · rw [readDocument_open_ok P s vaultID docID hos, hget]
  · intro s vaultID docID
    refine ⟨fun hn => ?_, fun st hst hdoc => ?_, fun st b hst hdoc => ?_⟩
    · rw [readDocument_open_error memProvider s vaultID docID Err.storeNotFound
        (memProvider_openStore_of_none hn)]
      rfl
    · rw [readDocument_open_ok memProvider s vaultID docID
        (memProvider_openStore_of_some hst), memProvider_get_eq hst, hdoc]
      rfl
    · rw [readDocument_open_ok memProvider s vaultID docID
        (memProvider_openStore_of_some hst), memProvider_get_eq hst, hdoc]

/-- Witness for C5: reading from an absent vault, reading an absent document
from an existing vault, and reading a stored document. -/
theorem readDocument_error_translation_witness :
    readDocument memProvider [] "noVault" "d" = .error Err.vaultNotFound ∧
    readDocument memProvider [("v", [])] "v" "d" = .error Err.documentNotFound ∧
    readDocument memProvider [("v", [("d", [5])])] "v" "d" = .ok [5] :=
  ⟨(readDocument_error_translation.2 [] "noVault" "d").1 (by rfl),
   (readDocument_error_translation.2 [("v", [])] "v" "d").2.1 [] (by rfl) (by rfl),
   (readDocument_error_translation.2 [("v", [("d", [5])])] "v" "d").2.2 [("d", [5])]
     [5] (by rfl) (by rfl)⟩

/-- C6: whenever `createDocument` succeeds, an immediate `readDocument` with
the same vault id and document id succeeds and returns exactly the bytes
persisted for the submitted document — its JSON serialization. -/
theorem createDocument_readDocument_roundtrip :
    ∀ (s s2 : MemState) (vaultID : String) (document : EncryptedDocument),
      createDocument memProvider s vaultID document = .ok s2 →
      readDocument memProvider s2 vaultID document.id = .ok (jsonMarshal document) := by
  intro s s2 vaultID document h
  match hst : alookup s vaultID with
  | none =>
    rw [createDocument_open_error memProvider s vaultID document Err.storeNotFound
      (memProvider_openStore_of_none hst)] at h
    exact Except.noConfusion h
  | some st =>
    have hos := memProvider_openStore_of_some hst
    match hchk : checkIfBase58Encoded128BitValue document.id with
    | some e =>
      rw [createDocument_checkId_error memProvider s vaultID document e hos hchk] at h
      exact Except.noConfusion h
    | none =>
      rw [createDocument_get_cases memProvider s vaultID document hos hchk,
        memProvider_get_eq hst] at h
      match hdoc : alookup st document.id with
      | some b =>
        rw [hdoc] at h
        simp at h
      | none =>
        rw [hdoc] at h
        rw [show (match (Except.error Err.valueNotFound : Except Err Bytes) with
              | .ok _ => Except.error Err.duplicateDocument
              | .error e =>
                if e ≠ Err.valueNotFound then Except.error e
                else memProvider.put s vaultID document) =
            memProvider.put s vaultID document from by simp] at h
        rw [memProvider_put_eq hst document] at h
        have hs2 : s2 = ainsert s vaultID (ainsert st document.id (jsonMarshal document)) := by
          cases h
          rfl
        subst hs2
        have hins := alookup_ainsert_self s vaultID (ainsert st document.id (jsonMarshal document))
        rw [readDocument_open_ok memProvider _ vaultID document.id
          (memProvider_openStore_of_some hins), memProvider_get_eq hins,
          alookup_ainsert_self]

/-- Witness for C6: a concrete create-then-read round trip. -/
theorem createDocument_readDocument_roundtrip_witness :
    readDocument memProvider
      [("v", [("1111111111111111", jsonMarshal ⟨"1111111111111111", [3, 4]⟩)])]
      "v" "1111111111111111" = .ok (jsonMarshal ⟨"1111111111111111", [3, 4]⟩) :=
  createDocument_readDocument_roundtrip [("v", [])]
    [("v", [("1111111111111111", jsonMarshal ⟨"1111111111111111", [3, 4]⟩)])]
    "v" ⟨"1111111111111111", [3, 4]⟩ (by rfl)

example : checkIfBase58Encoded128BitValue "1111111111111111" = none := by decide
example : checkIfBase58Encoded128BitValue "" = some Err.notBase58Encoded := by decide
example : checkIfBase58Encoded128BitValue "abc0" = some Err.notBase58Encoded := by decide
example : checkIfBase58Encoded128BitValue "z" = some Err.not128BitValue := by decide
example : decodeB58 (encodeB58 [255, 0, 3]) = [255, 0, 3] := by decide
example : decodeB58 (encodeB58 [0, 0, 17]) = [0, 0, 17] := by decide
example : createDataVault memProvider [] "vault1" = .ok [("vault1", [])] := by rfl
example : refPointerStored [("vault1", [])] "vault1" = false := by decide
